import Mathlib

/-!
Verification of the Ghostfolio portfolio risk and diversification analytics
engine against its specification.

The engine lives in two TypeScript services:
  * `AnalyticsService` (apps/api/.../analytics/analytics.service.ts) — the
    dashboard analytics endpoint, working in the fraction (0..1)
    representation, and
  * `AiService` (apps/api/.../ai/ai.service.ts) — the AI summary endpoint,
    working in the percentage (0..100) representation.

The shallow embedding below translates both services' computations into Lean.
JavaScript numbers are modelled as exact rationals (`ℚ`): the claims under
study are about the decimal arithmetic the code expresses, and every concrete
counterexample below has been checked to behave identically under IEEE-754
double arithmetic.  `Math.round` is modelled by `jsRound` (round half towards
positive infinity, which is JavaScript's `Math.round` semantics).  The
`new Date().toISOString()` capture-time effect is modelled by passing the
timestamp string as an explicit input.  `Array.prototype.sort` with the
comparator `(a, b) => keyOf b - keyOf a` is a stable descending sort by
`keyOf`; it is modelled by `List.insertionSort` with the relation
`keyOf b ≤ keyOf a`, which is the unique stable descending sort.
-/

/-- `Math.round` in JavaScript: round half towards positive infinity. -/
def jsRound (x : ℚ) : ℤ := ⌊x + 1 / 2⌋

/-- `Math.round(x * 10000) / 10000` — round to 4 decimal places. -/
def round4 (x : ℚ) : ℚ := (jsRound (x * 10000) : ℚ) / 10000

/-- `Math.round(x * 100) / 100` — round to 2 decimal places. -/
def round2 (x : ℚ) : ℚ := (jsRound (x * 100) : ℚ) / 100

/-- The numeric value rendered by JavaScript's `x.toFixed(1)`. -/
def toFixed1 (x : ℚ) : ℚ := (jsRound (x * 10) : ℚ) / 10

/-- The numeric value rendered by JavaScript's `x.toFixed(4)`. -/
def toFixed4 (x : ℚ) : ℚ := round4 x

/-- A portfolio position as supplied by `PortfolioService.getDetails`.
Fields that the TypeScript code guards with `?? default` are `Option`s. -/
structure PortfolioPosition where
  symbol : Option String
  name : Option String
  assetClass : Option String
  assetSubClass : Option String
  currency : Option String
  allocationInPercentage : Option ℚ
  valueInBaseCurrency : Option ℚ
  marketPrice : Option ℚ
deriving DecidableEq, Repr

/-- `p.allocationInPercentage ?? 0` (despite the field name, the value is the
allocation fraction in 0..1). -/
def fracOf (p : PortfolioPosition) : ℚ := p.allocationInPercentage.getD 0

/-- `p.assetClass ?? 'UNKNOWN'`. -/
def classOf (p : PortfolioPosition) : String := p.assetClass.getD "UNKNOWN"

/-- `p.valueInBaseCurrency ?? 0`. -/
def valOf (p : PortfolioPosition) : ℚ := p.valueInBaseCurrency.getD 0

/-- `p.symbol ?? ''`. -/
def symbolOf (p : PortfolioPosition) : String := p.symbol.getD ""

/-- `p.name ?? p.symbol ?? ''`. -/
def nameOf (p : PortfolioPosition) : String := p.name.getD (p.symbol.getD "")

/-- Comparator order of `[...positions].sort((a, b) =>
(b.allocationInPercentage ?? 0) - (a.allocationInPercentage ?? 0))`:
`a` precedes `b` when `a`'s fraction is at least `b`'s. -/
def posLe (a b : PortfolioPosition) : Prop := fracOf b ≤ fracOf a

instance : DecidableRel posLe := fun a b => inferInstanceAs (Decidable (_ ≤ _))

instance : IsTotal PortfolioPosition posLe :=
  ⟨fun a b => (le_total (fracOf b) (fracOf a)).imp id id⟩

instance : IsTrans PortfolioPosition posLe :=
  ⟨fun _ _ _ h h' => le_trans h' h⟩

/-- Stable descending sort of positions by allocation fraction. -/
def sortPositions (positions : List PortfolioPosition) : List PortfolioPosition :=
  positions.insertionSort posLe

/-- `ConcentrationRisk` of the analytics interface; `AiSummaryConcentration`
has the identical field set, so the structure is shared (the two services
populate `topHoldingWeight` in different representations). -/
structure ConcentrationRisk where
  topHoldingSymbol : String
  topHoldingName : String
  topHoldingWeight : ℚ
  herfindahlIndex : ℚ
  isHighlyConcentrated : Bool
deriving DecidableEq, Repr

/-- `AssetAllocationEntry` of the analytics interface;
`AiSummaryAssetAllocation` has the identical field set and is shared. -/
structure AssetAllocationEntry where
  assetClass : String
  weight : ℚ
  valueInBaseCurrency : ℚ
deriving DecidableEq, Repr

/-- `DiversificationScore` of the analytics interface;
`AiSummaryDiversification` has the identical field set and is shared. -/
structure DiversificationScore where
  score : ℤ
  assetClassCount : ℕ
  holdingsCount : ℕ
  topAssetClass : String
  topAssetClassWeight : ℚ
deriving DecidableEq, Repr

/-- `Σ (allocationFraction)²` over all positions — the raw (unrounded)
Herfindahl-Hirschman index computed by both services' `reduce`. -/
def portfolioHhi (positions : List PortfolioPosition) : ℚ :=
  (positions.map (fun p => fracOf p * fracOf p)).sum

/-- One `classMap` update step of the `for (const p of positions)` loop:
`Map.set` updates an existing key in place (preserving its position) and
appends a new key at the end (JavaScript `Map` preserves insertion order). -/
def upsert (cls : String) (w v : ℚ) :
    List AssetAllocationEntry → List AssetAllocationEntry
  | [] => [⟨cls, w, v⟩]
  | e :: rest =>
    if e.assetClass = cls then ⟨e.assetClass, e.weight + w, e.valueInBaseCurrency + v⟩ :: rest
    else e :: upsert cls w v rest

/-- The `classMap` accumulation loop shared verbatim by both services'
`computeAssetAllocation`: raw per-class sums of fraction and value, in
first-occurrence order. -/
def groupPositions (positions : List PortfolioPosition) : List AssetAllocationEntry :=
  positions.foldl (fun m p => upsert (classOf p) (fracOf p) (valOf p) m) []

/-- Comparator order of `.sort((a, b) => b.weight - a.weight)`. -/
def entryLe (a b : AssetAllocationEntry) : Prop := b.weight ≤ a.weight

instance : DecidableRel entryLe := fun a b => inferInstanceAs (Decidable (_ ≤ _))

instance : IsTotal AssetAllocationEntry entryLe :=
  ⟨fun a b => (le_total b.weight a.weight).imp id id⟩

instance : IsTrans AssetAllocationEntry entryLe :=
  ⟨fun _ _ _ h h' => le_trans h' h⟩

/-- Stable descending sort of allocation entries by weight. -/
def sortAllocation (l : List AssetAllocationEntry) : List AssetAllocationEntry :=
  l.insertionSort entryLe

namespace AnalyticsService

/-- `AnalyticsService.computeConcentrationRisk`.  The source returns the
neutral record when `positions.length === 0` and otherwise takes
`sorted[0]` of the stable descending copy-sort; `sortPositions` is empty
exactly when the input is, so both branches are expressed by one match. -/
def computeConcentrationRisk (positions : List PortfolioPosition) : ConcentrationRisk :=
  match sortPositions positions with
  | [] =>
    { topHoldingSymbol := ""
      topHoldingName := ""
      topHoldingWeight := 0
      herfindahlIndex := 0
      isHighlyConcentrated := false }
  | top :: _ =>
    { topHoldingSymbol := symbolOf top
      topHoldingName := nameOf top
      topHoldingWeight := fracOf top
      herfindahlIndex := round4 (portfolioHhi positions)
      isHighlyConcentrated := decide (portfolioHhi positions > 1 / 4) }

/-- `AnalyticsService.computeAssetAllocation`: group by class, round each
group's weight to 4 decimals (fraction) and value to 2 decimals, sort by
weight descending. -/
def computeAssetAllocation (positions : List PortfolioPosition) : List AssetAllocationEntry :=
  sortAllocation ((groupPositions positions).map (fun e =>
    ⟨e.assetClass, round4 e.weight, round2 e.valueInBaseCurrency⟩))

/-- `positions.filter((p) => p.assetClass !== AssetClass.LIQUIDITY).length`. -/
def holdingsCountOf (positions : List PortfolioPosition) : ℕ :=
  (positions.filter (fun p => p.assetClass != some "LIQUIDITY")).length

/-- The filter `(a) => a.assetClass !== 'LIQUIDITY' && a.assetClass !== 'UNKNOWN'`. -/
def isScoredClass (a : AssetAllocationEntry) : Bool :=
  a.assetClass != "LIQUIDITY" && a.assetClass != "UNKNOWN"

/-- Count of allocation entries excluding `LIQUIDITY` and `UNKNOWN`. -/
def assetClassCountOf (allocation : List AssetAllocationEntry) : ℕ :=
  (allocation.filter isScoredClass).length

/-- `Σ weight²` over non-`LIQUIDITY`, non-`UNKNOWN` allocation entries
(fraction representation). -/
def classHhiOf (allocation : List AssetAllocationEntry) : ℚ :=
  ((allocation.filter isScoredClass).map (fun a => a.weight * a.weight)).sum

/-- `Math.min(holdingsCount / 20, 1) * 40`. -/
def holdingsScoreOf (positions : List PortfolioPosition) : ℚ :=
  min ((holdingsCountOf positions : ℚ) / 20) 1 * 40

/-- `Math.min(assetClassCount / 5, 1) * 30`. -/
def classScoreOf (allocation : List AssetAllocationEntry) : ℚ :=
  min ((assetClassCountOf allocation : ℚ) / 5) 1 * 30

/-- `(1 - classHhi) * 30` — note: the source has no clamp at 0. -/
def evennessScoreOf (allocation : List AssetAllocationEntry) : ℚ :=
  (1 - classHhiOf allocation) * 30

/-- `AnalyticsService.computeDiversification`. -/
def computeDiversification (positions : List PortfolioPosition)
    (allocation : List AssetAllocationEntry) : DiversificationScore :=
  { score := jsRound (min
      (holdingsScoreOf positions + classScoreOf allocation + evennessScoreOf allocation) 100)
    assetClassCount := assetClassCountOf allocation
    holdingsCount := holdingsCountOf positions
    topAssetClass := (allocation.head?.map (·.assetClass)).getD "UNKNOWN"
    topAssetClassWeight := round4 ((allocation.head?.map (·.weight)).getD 0) }

/-- Insight messages of `AnalyticsService.generateInsights`, tagged by rule
branch and carrying the numeric payloads that the source interpolates into
the message string (after its `toFixed` formatting). -/
inductive Insight where
  | highConcentration (topHoldingName topHoldingSymbol : String) (weightPct : ℚ) (hhi : ℚ)
  | moderateConcentration (topHoldingName : String) (weightPct : ℚ)
  | goodDiversification (score : ℤ) (holdingsCount assetClassCount : ℕ)
  | moderateDiversification (score : ℤ)
  | lowDiversification (score : ℤ) (topAssetClass : String) (topWeightPct : ℚ)
  | equityOverweight (weightPct : ℚ)
  | fixedIncomeAbsence
deriving DecidableEq, Repr

/-- `AnalyticsService.generateInsights`: the four rules pushed in source
order (concentration, diversification, equity overweight, fixed-income
absence). -/
def generateInsights (c : ConcentrationRisk) (d : DiversificationScore)
    (allocation : List AssetAllocationEntry) : List Insight :=
  (if c.isHighlyConcentrated then
    [Insight.highConcentration c.topHoldingName c.topHoldingSymbol
      (toFixed1 (c.topHoldingWeight * 100)) (toFixed4 c.herfindahlIndex)]
  else if c.topHoldingWeight > 15 / 100 then
    [Insight.moderateConcentration c.topHoldingName (toFixed1 (c.topHoldingWeight * 100))]
  else []) ++
  (if d.score ≥ 70 then
    [Insight.goodDiversification d.score d.holdingsCount d.assetClassCount]
  else if d.score ≥ 40 then
    [Insight.moderateDiversification d.score]
  else
    [Insight.lowDiversification d.score d.topAssetClass (toFixed1 (d.topAssetClassWeight * 100))]) ++
  (match allocation.find? (fun a => a.assetClass == "EQUITY") with
   | some a => if a.weight > 8 / 10 then [Insight.equityOverweight (toFixed1 (a.weight * 100))] else []
   | none => []) ++
  (match allocation.find? (fun a => a.assetClass == "FIXED_INCOME") with
   | some a => if a.weight < 5 / 100 then [Insight.fixedIncomeAbsence] else []
   | none => [Insight.fixedIncomeAbsence])

/-- `PortfolioAnalyticsResponse`. -/
structure PortfolioAnalyticsResponse where
  assetAllocation : List AssetAllocationEntry
  concentrationRisk : ConcentrationRisk
  diversification : DiversificationScore
  insights : List Insight
  computedAt : String
deriving DecidableEq, Repr

/-- `AnalyticsService.getAnalytics`, with the holdings already materialized
by the external position provider and the capture time passed explicitly
(the source calls `new Date().toISOString()` at assembly time). -/
def getAnalytics (positions : List PortfolioPosition) (now : String) :
    PortfolioAnalyticsResponse :=
  let concentrationRisk := computeConcentrationRisk positions
  let assetAllocation := computeAssetAllocation positions
  let diversification := computeDiversification positions assetAllocation
  let insights := generateInsights concentrationRisk diversification assetAllocation
  { assetAllocation, concentrationRisk, diversification, insights, computedAt := now }

end AnalyticsService

namespace AiService

/-- `AiService.computeConcentration`: identical to the analytics variant
except that `topHoldingWeight` is returned as a percentage rounded to 2
decimal places (`Math.round(w * 10000) / 100`). -/
def computeConcentration (positions : List PortfolioPosition) : ConcentrationRisk :=
  match sortPositions positions with
  | [] =>
    { topHoldingSymbol := ""
      topHoldingName := ""
      topHoldingWeight := 0
      herfindahlIndex := 0
      isHighlyConcentrated := false }
  | top :: _ =>
    { topHoldingSymbol := symbolOf top
      topHoldingName := nameOf top
      topHoldingWeight := (jsRound (fracOf top * 10000) : ℚ) / 100
      herfindahlIndex := round4 (portfolioHhi positions)
      isHighlyConcentrated := decide (portfolioHhi positions > 1 / 4) }

/-- `AiService.computeAssetAllocation`: same grouping, but weights are
emitted as percentages with 2-decimal rounding
(`Math.round(weight * 10000) / 100`). -/
def computeAssetAllocation (positions : List PortfolioPosition) : List AssetAllocationEntry :=
  sortAllocation ((groupPositions positions).map (fun e =>
    ⟨e.assetClass, (jsRound (e.weight * 10000) : ℚ) / 100, round2 e.valueInBaseCurrency⟩))

/-- `Σ (weight / 100)²` over non-`LIQUIDITY`, non-`UNKNOWN` entries — the
AI variant converts its percentage weights back to fractions first. -/
def classHhiOf (allocation : List AssetAllocationEntry) : ℚ :=
  (((allocation.filter AnalyticsService.isScoredClass).map (fun a => a.weight / 100)).map
    (fun w => w * w)).sum

/-- `AiService.computeDiversification`; differs from the analytics variant
only in the percentage-based `classHhi` and in returning
`topAssetClassWeight` without an extra rounding. -/
def computeDiversification (positions : List PortfolioPosition)
    (allocation : List AssetAllocationEntry) : DiversificationScore :=
  { score := jsRound (min
      (AnalyticsService.holdingsScoreOf positions +
        AnalyticsService.classScoreOf allocation + (1 - classHhiOf allocation) * 30) 100)
    assetClassCount := AnalyticsService.assetClassCountOf allocation
    holdingsCount := AnalyticsService.holdingsCountOf positions
    topAssetClass := (allocation.head?.map (·.assetClass)).getD "UNKNOWN"
    topAssetClassWeight := (allocation.head?.map (·.weight)).getD 0 }

/-- Insight messages of `AiService.generateInsights` (the high-concentration
message does not cite the symbol, and percentages are already in 0..100). -/
inductive AiInsight where
  | highConcentration (topHoldingName : String) (weightPct : ℚ) (hhi : ℚ)
  | moderateConcentration (topHoldingName : String) (weightPct : ℚ)
  | goodDiversification (score : ℤ) (holdingsCount assetClassCount : ℕ)
  | moderateDiversification (score : ℤ)
  | lowDiversification (score : ℤ) (topAssetClass : String) (topWeightPct : ℚ)
  | equityOverweight (weightPct : ℚ)
  | fixedIncomeAbsence
deriving DecidableEq, Repr

/-- `AiService.generateInsights`: same four rules with percentage-scale
thresholds (15, 80, 5). -/
def generateInsights (c : ConcentrationRisk) (d : DiversificationScore)
    (allocation : List AssetAllocationEntry) : List AiInsight :=
  (if c.isHighlyConcentrated then
    [AiInsight.highConcentration c.topHoldingName (toFixed1 c.topHoldingWeight)
      (toFixed4 c.herfindahlIndex)]
  else if c.topHoldingWeight > 15 then
    [AiInsight.moderateConcentration c.topHoldingName (toFixed1 c.topHoldingWeight)]
  else []) ++
  (if d.score ≥ 70 then
    [AiInsight.goodDiversification d.score d.holdingsCount d.assetClassCount]
  else if d.score ≥ 40 then
    [AiInsight.moderateDiversification d.score]
  else
    [AiInsight.lowDiversification d.score d.topAssetClass (toFixed1 d.topAssetClassWeight)]) ++
  (match allocation.find? (fun a => a.assetClass == "EQUITY") with
   | some a => if a.weight > 80 then [AiInsight.equityOverweight (toFixed1 a.weight)] else []
   | none => []) ++
  (match allocation.find? (fun a => a.assetClass == "FIXED_INCOME") with
   | some a => if a.weight < 5 then [AiInsight.fixedIncomeAbsence] else []
   | none => [AiInsight.fixedIncomeAbsence])

/-- `AiSummaryHolding`: one row of the structured holdings list. -/
structure AiSummaryHolding where
  symbol : String
  name : String
  assetClass : String
  assetSubClass : String
  currency : String
  allocationPercentage : ℚ
  valueInBaseCurrency : ℚ
  marketPrice : ℚ
deriving DecidableEq, Repr

/-- `AiSummaryResponse`. -/
structure AiSummaryResponse where
  baseCurrency : String
  holdings : List AiSummaryHolding
  concentration : ConcentrationRisk
  diversification : DiversificationScore
  assetAllocation : List AssetAllocationEntry
  insights : List AiInsight
  computedAt : String
deriving DecidableEq, Repr

/-- `AiService.getSummary`.  Note: the source calls
`positions.sort(...)` (no spread), which sorts the `positions` array in
place, so every subsequent helper receives the fraction-sorted array. -/
def getSummary (positions : List PortfolioPosition) (userCurrency now : String) :
    AiSummaryResponse :=
  let sortedPositions := sortPositions positions
  let holdingsList := sortedPositions.map (fun p =>
    { symbol := symbolOf p
      name := nameOf p
      assetClass := classOf p
      assetSubClass := p.assetSubClass.getD "UNKNOWN"
      currency := p.currency.getD userCurrency
      allocationPercentage := (jsRound (fracOf p * 10000) : ℚ) / 100
      valueInBaseCurrency := round2 (valOf p)
      marketPrice := p.marketPrice.getD 0 : AiSummaryHolding })
  let concentration := computeConcentration sortedPositions
  let assetAllocation := computeAssetAllocation sortedPositions
  let diversification := computeDiversification sortedPositions assetAllocation
  let insights := generateInsights concentration diversification assetAllocation
  { baseCurrency := userCurrency
    holdings := holdingsList
    concentration
    diversification
    assetAllocation
    insights
    computedAt := now }

end AiService

/-! ### Basic properties of the JavaScript rounding model -/

theorem jsRound_intCast (n : ℤ) : jsRound (n : ℚ) = n := by
  rw [jsRound, add_comm, Int.floor_add_int]
  norm_num

theorem jsRound_mono {x y : ℚ} (h : x ≤ y) : jsRound x ≤ jsRound y :=
  Int.floor_le_floor (by linarith)

theorem jsRound_le (x : ℚ) : (jsRound x : ℚ) ≤ x + 1 / 2 :=
  Int.floor_le _

theorem lt_jsRound (x : ℚ) : x - 1 / 2 < (jsRound x : ℚ) := by
  have h := Int.lt_floor_add_one (x + 1 / 2)
  rw [jsRound]
  linarith

theorem jsRound_nonneg {x : ℚ} (h : 0 ≤ x) : 0 ≤ jsRound x := by
  have h0 : jsRound 0 = 0 := by
    have := jsRound_intCast 0
    simpa using this
  calc (0 : ℤ) = jsRound 0 := h0.symm
    _ ≤ jsRound x := jsRound_mono h

theorem round4_nonneg {x : ℚ} (h : 0 ≤ x) : 0 ≤ round4 x := by
  have : (0 : ℤ) ≤ jsRound (x * 10000) := jsRound_nonneg (by linarith)
  rw [round4]
  positivity

theorem round4_le_one {x : ℚ} (h : x ≤ 1) : round4 x ≤ 1 := by
  have h1 : jsRound (x * 10000) ≤ jsRound ((10000 : ℤ) : ℚ) := jsRound_mono (by push_cast; linarith)
  rw [jsRound_intCast] at h1
  have h2 : (jsRound (x * 10000) : ℚ) ≤ 10000 := by exact_mod_cast h1
  rw [round4]
  linarith

theorem abs_round4_sub (x : ℚ) : |round4 x - x| ≤ 1 / 20000 := by
  have h1 : (jsRound (x * 10000) : ℚ) ≤ x * 10000 + 1 / 2 := jsRound_le _
  have h2 : x * 10000 - 1 / 2 < (jsRound (x * 10000) : ℚ) := lt_jsRound _
  rw [round4, abs_le]
  constructor <;> [linarith; linarith]

theorem gt_quarter_of_round4_gt {x : ℚ} (h : round4 x > 1 / 4) : x > 1 / 4 := by
  rw [round4] at h
  have h1 : (2500 : ℤ) < jsRound (x * 10000) := by
    have : (2500 : ℚ) < (jsRound (x * 10000) : ℚ) := by linarith
    exact_mod_cast this
  have h2 : (2501 : ℤ) ≤ jsRound (x * 10000) := h1
  have h3 : (2501 : ℚ) ≤ (jsRound (x * 10000) : ℚ) := by exact_mod_cast h2
  have h4 := jsRound_le (x * 10000)
  linarith

theorem round4_ge_quarter_of_gt {x : ℚ} (h : x > 1 / 4) : round4 x ≥ 1 / 4 := by
  have h1 : (2500 : ℤ) ≤ jsRound (x * 10000) := by
    rw [jsRound, Int.le_floor]
    push_cast
    linarith
  have h2 : (2500 : ℚ) ≤ (jsRound (x * 10000) : ℚ) := by exact_mod_cast h1
  rw [round4]
  linarith

/-! ### Insight rule classification -/

/-- The four insight rules of the specification (section 4.4). -/
inductive InsightRule where
  | concentration
  | diversification
  | equity
  | fixedIncome
deriving DecidableEq, Repr

/-- Which rule an analytics insight message was emitted by. -/
def AnalyticsService.Insight.rule : AnalyticsService.Insight → InsightRule
  | .highConcentration _ _ _ _ => .concentration
  | .moderateConcentration _ _ => .concentration
  | .goodDiversification _ _ _ => .diversification
  | .moderateDiversification _ => .diversification
  | .lowDiversification _ _ _ => .diversification
  | .equityOverweight _ => .equity
  | .fixedIncomeAbsence => .fixedIncome

/-- Which rule an AI-summary insight message was emitted by. -/
def AiService.AiInsight.rule : AiService.AiInsight → InsightRule
  | .highConcentration _ _ _ => .concentration
  | .moderateConcentration _ _ => .concentration
  | .goodDiversification _ _ _ => .diversification
  | .moderateDiversification _ => .diversification
  | .lowDiversification _ _ _ => .diversification
  | .equityOverweight _ => .equity
  | .fixedIncomeAbsence => .fixedIncome

/-! ### Concrete example holdings used by scenario claims -/

/-- A holding with a symbol, an asset class and an allocation fraction, the
remaining fields absent. -/
def mkPosition (sym cls : String) (f : ℚ) : PortfolioPosition :=
  ⟨some sym, none, some cls, none, none, some f, none, none⟩

/-- Scenario B input: one full-weight AAPL equity holding. -/
def singleAapl : List PortfolioPosition := [mkPosition "AAPL" "EQUITY" 1]

/-- Three full-weight equity holdings — allocation fractions each in `[0,1]`
but summing to 3. -/
def tripleEquity : List PortfolioPosition :=
  [mkPosition "A" "EQUITY" 1, mkPosition "B" "EQUITY" 1, mkPosition "C" "EQUITY" 1]


/-! ### Evaluation helpers for concrete rounding values -/

theorem jsRound_eq_of {x : ℚ} {n : ℤ} (h1 : (n : ℚ) ≤ x + 1 / 2) (h2 : x + 1 / 2 < n + 1) :
    jsRound x = n := by
  rw [jsRound]
  refine Int.floor_eq_iff.mpr ⟨h1, ?_⟩
  exact_mod_cast h2

theorem round4_zero : round4 0 = 0 := by
  have h0 : jsRound ((0 : ℚ) * 10000) = 0 := jsRound_eq_of (by norm_num) (by norm_num)
  rw [round4, h0]
  norm_num

theorem round4_one : round4 1 = 1 := by
  have h0 : jsRound ((1 : ℚ) * 10000) = 10000 := jsRound_eq_of (by norm_num) (by norm_num)
  rw [round4, h0]
  norm_num

theorem round2_zero : round2 0 = 0 := by
  have h0 : jsRound ((0 : ℚ) * 100) = 0 := jsRound_eq_of (by norm_num) (by norm_num)
  rw [round2, h0]
  norm_num

theorem toFixed1_zero : toFixed1 0 = 0 := by
  have h0 : jsRound ((0 : ℚ) * 10) = 0 := jsRound_eq_of (by norm_num) (by norm_num)
  rw [toFixed1, h0]
  norm_num

theorem portfolioHhi_nil : portfolioHhi [] = 0 := by
  simp [portfolioHhi]

theorem sortPositions_eq_nil {positions : List PortfolioPosition}
    (h : sortPositions positions = []) : positions = [] := by
  have hl := List.length_insertionSort posLe positions
  rw [sortPositions] at h
  rw [h] at hl
  exact List.eq_nil_of_length_eq_zero hl.symm

/-! ### Shared facts about the concentration computation -/

theorem analytics_herfindahl_eq (positions : List PortfolioPosition) :
    (AnalyticsService.computeConcentrationRisk positions).herfindahlIndex =
      round4 (portfolioHhi positions) := by
  rw [AnalyticsService.computeConcentrationRisk]
  cases h : sortPositions positions with
  | nil =>
    have hnil := sortPositions_eq_nil h
    subst hnil
    show (0 : ℚ) = round4 (portfolioHhi [])
    rw [portfolioHhi_nil, round4_zero]
  | cons top rest => rfl

theorem analytics_flag_eq (positions : List PortfolioPosition) :
    (AnalyticsService.computeConcentrationRisk positions).isHighlyConcentrated =
      decide (portfolioHhi positions > 1 / 4) := by
  rw [AnalyticsService.computeConcentrationRisk]
  cases h : sortPositions positions with
  | nil =>
    have hnil := sortPositions_eq_nil h
    subst hnil
    show false = decide (portfolioHhi [] > 1 / 4)
    rw [portfolioHhi_nil, decide_eq_false (by norm_num : ¬((0 : ℚ) > 1 / 4))]
  | cons top rest => rfl

theorem ai_herfindahl_eq (positions : List PortfolioPosition) :
    (AiService.computeConcentration positions).herfindahlIndex =
      round4 (portfolioHhi positions) := by
  rw [AiService.computeConcentration]
  cases h : sortPositions positions with
  | nil =>
    have hnil := sortPositions_eq_nil h
    subst hnil
    show (0 : ℚ) = round4 (portfolioHhi [])
    rw [portfolioHhi_nil, round4_zero]
  | cons top rest => rfl

theorem ai_flag_eq (positions : List PortfolioPosition) :
    (AiService.computeConcentration positions).isHighlyConcentrated =
      decide (portfolioHhi positions > 1 / 4) := by
  rw [AiService.computeConcentration]
  cases h : sortPositions positions with
  | nil =>
    have hnil := sortPositions_eq_nil h
    subst hnil
    show false = decide (portfolioHhi [] > 1 / 4)
    rw [portfolioHhi_nil, decide_eq_false (by norm_num : ¬((0 : ℚ) > 1 / 4))]
  | cons top rest => rfl

/-! ### Further concrete inputs for counterexamples and witnesses -/

/-- A single holding with allocation fraction `0.500001`: its squared weight
exceeds `0.25` but rounds to `0.25` at 4 decimals. -/
def nearThreshold : List PortfolioPosition :=
  [mkPosition "A" "EQUITY" (500001 / 1000000)]

/-- Two full-weight holdings: each fraction is in `[0,1]` but they sum to 2. -/
def pairFullWeight : List PortfolioPosition :=
  [mkPosition "A" "EQUITY" 1, mkPosition "B" "FIXED_INCOME" 1]

/-- A well-formed 60/40 two-class portfolio (fractions sum to 1). -/
def sixtyForty : List PortfolioPosition :=
  [mkPosition "A" "EQUITY" (6 / 10), mkPosition "B" "FIXED_INCOME" (4 / 10)]

/-! ### Claim C6 -/

/-- Claim C6: for the single-holding input `{symbol: "AAPL",
allocationFraction: 1.0, assetClass: "EQUITY"}`, the engine returns
`herfindahlIndex = 1.0000` with `isHighlyConcentrated = true`,
`holdingsCount = 1`, `holdingsScore = 2`, `classScore = 6`, `classHHI = 1.0`
hence `evennessScore = 0`, and a total diversification score of 8. -/
theorem claim_C6_scenarioB :
    (AnalyticsService.computeConcentrationRisk singleAapl).herfindahlIndex = 1 ∧
    (AnalyticsService.computeConcentrationRisk singleAapl).isHighlyConcentrated = true ∧
    AnalyticsService.holdingsCountOf singleAapl = 1 ∧
    AnalyticsService.holdingsScoreOf singleAapl = 2 ∧
    AnalyticsService.computeAssetAllocation singleAapl = [⟨"EQUITY", 1, 0⟩] ∧
    AnalyticsService.classScoreOf (AnalyticsService.computeAssetAllocation singleAapl) = 6 ∧
    AnalyticsService.classHhiOf (AnalyticsService.computeAssetAllocation singleAapl) = 1 ∧
    AnalyticsService.evennessScoreOf (AnalyticsService.computeAssetAllocation singleAapl) = 0 ∧
    (AnalyticsService.computeDiversification singleAapl
      (AnalyticsService.computeAssetAllocation singleAapl)).score = 8 := by
  have hhi1 : portfolioHhi singleAapl = 1 := by
    simp [portfolioHhi, singleAapl, mkPosition, fracOf]
  have hcount : AnalyticsService.holdingsCountOf singleAapl = 1 := by
    simp [AnalyticsService.holdingsCountOf, singleAapl, mkPosition]
  have halloc : AnalyticsService.computeAssetAllocation singleAapl = [⟨"EQUITY", 1, 0⟩] := by
    have hg : groupPositions singleAapl = [⟨"EQUITY", 1, 0⟩] := by
      simp [groupPositions, singleAapl, upsert, mkPosition, classOf, fracOf, valOf]
    rw [AnalyticsService.computeAssetAllocation, hg]
    simp [sortAllocation, round4_one, round2_zero]
  have hclassHhi : AnalyticsService.classHhiOf [⟨"EQUITY", 1, 0⟩] = 1 := by
    simp [AnalyticsService.classHhiOf, AnalyticsService.isScoredClass]
  have hclassCount : AnalyticsService.assetClassCountOf [⟨"EQUITY", 1, 0⟩] = 1 := by
    simp [AnalyticsService.assetClassCountOf, AnalyticsService.isScoredClass]
  refine ⟨?_, ?_, hcount, ?_, halloc, ?_, ?_, ?_, ?_⟩
  · rw [analytics_herfindahl_eq, hhi1]
    exact round4_one
  · rw [analytics_flag_eq, hhi1]
    exact decide_eq_true (by norm_num)
  · rw [AnalyticsService.holdingsScoreOf, hcount]
    norm_num
  · rw [halloc, AnalyticsService.classScoreOf, hclassCount]
    norm_num
  · rw [halloc]
    exact hclassHhi
  · rw [halloc, AnalyticsService.evennessScoreOf, hclassHhi]
    norm_num
  · rw [halloc, AnalyticsService.computeDiversification]
    show jsRound _ = 8
    rw [AnalyticsService.holdingsScoreOf, hcount, AnalyticsService.classScoreOf, hclassCount,
      AnalyticsService.evennessScoreOf, hclassHhi]
    norm_num [min_def]
    exact jsRound_eq_of (by norm_num) (by norm_num)

/-! ### Claim C2 -/

theorem empty_diversification :
    AnalyticsService.computeDiversification [] [] = ⟨30, 0, 0, "UNKNOWN", 0⟩ := by
  rw [AnalyticsService.computeDiversification]
  simp only [DiversificationScore.mk.injEq]
  refine ⟨?_, rfl, rfl, rfl, ?_⟩
  · rw [AnalyticsService.holdingsScoreOf, AnalyticsService.classScoreOf,
      AnalyticsService.evennessScoreOf,
      show AnalyticsService.holdingsCountOf [] = 0 from rfl,
      show AnalyticsService.assetClassCountOf [] = 0 from rfl,
      show AnalyticsService.classHhiOf [] = 0 from rfl]
    norm_num [min_def]
    exact jsRound_eq_of (by norm_num) (by norm_num)
  · show round4 0 = 0
    exact round4_zero

theorem empty_insights (now : String) :
    (AnalyticsService.getAnalytics [] now).insights =
      [AnalyticsService.Insight.lowDiversification 30 "UNKNOWN" 0,
       AnalyticsService.Insight.fixedIncomeAbsence] := by
  have hi : (AnalyticsService.getAnalytics [] now).insights =
      AnalyticsService.generateInsights ⟨"", "", 0, 0, false⟩
        (AnalyticsService.computeDiversification [] []) [] := rfl
  rw [hi, empty_diversification, AnalyticsService.generateInsights]
  simp only []
  rw [if_neg (by norm_num : ¬((0 : ℚ) > 15 / 100))]
  rw [if_neg (by norm_num : ¬((30 : ℤ) ≥ 70)), if_neg (by norm_num : ¬((30 : ℤ) ≥ 40))]
  simp [toFixed1_zero]

/-- Claim C2 (counterexample): the claim asserts a diversification score of 0
for the empty holdings list, but the engine returns 30 (the evenness term
contributes `(1 - 0) * 30 = 30` even when no allocation entries exist). -/
theorem claim_C2_counterexample :
    (AnalyticsService.getAnalytics [] "2025-01-01T00:00:00.000Z").diversification.score ≠ 0 := by
  have h : (AnalyticsService.getAnalytics [] "2025-01-01T00:00:00.000Z").diversification =
      AnalyticsService.computeDiversification [] [] := rfl
  rw [h, empty_diversification]
  norm_num

/-- Claim C2 (amended): for the empty holdings list, the engine returns the
neutral concentration value `{topHoldingSymbol: "", topHoldingName: "",
topHoldingWeight: 0, herfindahlIndex: 0, isHighlyConcentrated: false}`, an
empty allocation list, a diversification score of 30 (the unclamped evenness
term contributes all 30 points when the asset-class HHI is 0), and an
insight list that contains exactly one diversification message (the "low"
branch) and no concentration message. -/
theorem claim_C2_amended (now : String) :
    (AnalyticsService.getAnalytics [] now).concentrationRisk = ⟨"", "", 0, 0, false⟩ ∧
    (AnalyticsService.getAnalytics [] now).assetAllocation = [] ∧
    (AnalyticsService.getAnalytics [] now).diversification.score = 30 ∧
    (AnalyticsService.getAnalytics [] now).insights =
      [AnalyticsService.Insight.lowDiversification 30 "UNKNOWN" 0,
       AnalyticsService.Insight.fixedIncomeAbsence] ∧
    ((AnalyticsService.getAnalytics [] now).insights.countP
      (fun i => i.rule == InsightRule.diversification)) = 1 ∧
    ((AnalyticsService.getAnalytics [] now).insights.filter
      (fun i => i.rule == InsightRule.diversification)) =
      [AnalyticsService.Insight.lowDiversification 30 "UNKNOWN" 0] ∧
    ((AnalyticsService.getAnalytics [] now).insights.countP
      (fun i => i.rule == InsightRule.concentration)) = 0 := by
  refine ⟨rfl, rfl, ?_, empty_insights now, ?_, ?_, ?_⟩
  · show (AnalyticsService.computeDiversification [] []).score = 30
    rw [empty_diversification]
  · rw [empty_insights now]
    rfl
  · rw [empty_insights now]
    rfl
  · rw [empty_insights now]
    rfl

/-! ### Claim C3 -/

/-- Claim C3 (code evaluation at the failing input): for three full-weight
EQUITY holdings (each allocation fraction 1, all in `[0,1]`), the evenness
term evaluates to `(1 - 9) * 30 = -240` — the source has no `max(0, ...)`
clamp — and the returned diversification score is `-228`, violating the
documented `0..100` score range. -/
theorem claim_C3_code_eval :
    AnalyticsService.evennessScoreOf (AnalyticsService.computeAssetAllocation tripleEquity)
      = -240 ∧
    (AnalyticsService.computeDiversification tripleEquity
      (AnalyticsService.computeAssetAllocation tripleEquity)).score = -228 ∧
    (AnalyticsService.computeDiversification tripleEquity
      (AnalyticsService.computeAssetAllocation tripleEquity)).score < 0 := by
  have hg : groupPositions tripleEquity = [⟨"EQUITY", 3, 0⟩] := by
    norm_num [groupPositions, tripleEquity, upsert, mkPosition, classOf, fracOf, valOf]
  have h3 : round4 3 = 3 := by
    have h : jsRound ((3 : ℚ) * 10000) = 30000 := jsRound_eq_of (by norm_num) (by norm_num)
    rw [round4, h]
    norm_num
  have halloc : AnalyticsService.computeAssetAllocation tripleEquity = [⟨"EQUITY", 3, 0⟩] := by
    rw [AnalyticsService.computeAssetAllocation, hg]
    simp [sortAllocation, h3, round2_zero]
  have hclassHhi : AnalyticsService.classHhiOf [⟨"EQUITY", 3, 0⟩] = 9 := by
    simp [AnalyticsService.classHhiOf, AnalyticsService.isScoredClass] <;> norm_num
  have hclassCount : AnalyticsService.assetClassCountOf [⟨"EQUITY", 3, 0⟩] = 1 := by
    simp [AnalyticsService.assetClassCountOf, AnalyticsService.isScoredClass]
  have hcount : AnalyticsService.holdingsCountOf tripleEquity = 3 := by
    simp [AnalyticsService.holdingsCountOf, tripleEquity, mkPosition]
  have hscore : (AnalyticsService.computeDiversification tripleEquity
      (AnalyticsService.computeAssetAllocation tripleEquity)).score = -228 := by
    rw [halloc, AnalyticsService.computeDiversification]
    show jsRound _ = -228
    rw [AnalyticsService.holdingsScoreOf, hcount, AnalyticsService.classScoreOf, hclassCount,
      AnalyticsService.evennessScoreOf, hclassHhi]
    norm_num [min_def]
    exact jsRound_eq_of (by norm_num) (by norm_num)
  refine ⟨?_, hscore, ?_⟩
  · rw [halloc, AnalyticsService.evennessScoreOf, hclassHhi]
    norm_num
  · rw [hscore]
    norm_num

/-! ### Claim C4 -/

/-- Claim C4 (counterexample): for a single holding of fraction `0.500001`
the raw HHI is `0.250001000001`, so the flag (computed from the raw HHI) is
true, yet the returned `herfindahlIndex` rounds down to exactly `0.25`,
which is not `> 0.25`.  The claimed equivalence
`isHighlyConcentrated == (herfindahlIndex > 0.25)` fails for the value
actually returned in the response. -/
theorem claim_C4_counterexample :
    (AnalyticsService.computeConcentrationRisk nearThreshold).isHighlyConcentrated = true ∧
    ¬((AnalyticsService.computeConcentrationRisk nearThreshold).herfindahlIndex > 1 / 4) := by
  have hhhi : portfolioHhi nearThreshold = 250001000001 / 1000000000000 := by
    norm_num [portfolioHhi, nearThreshold, mkPosition, fracOf]
  constructor
  · rw [analytics_flag_eq, hhhi]
    exact decide_eq_true (by norm_num)
  · rw [analytics_herfindahl_eq, hhhi]
    have hr : jsRound ((250001000001 / 1000000000000 : ℚ) * 10000) = 2500 :=
      jsRound_eq_of (by norm_num) (by norm_num)
    rw [round4, hr]
    norm_num

/-- Claim C4 (amended): in both services the flag is computed from the raw
(unrounded) HHI, `isHighlyConcentrated = (rawHHI > 0.25)`; consequently, in
terms of the returned 4-decimal `herfindahlIndex`, the flag is implied by
`herfindahlIndex > 0.25` and implies `herfindahlIndex ≥ 0.25`. -/
theorem claim_C4_amended (positions : List PortfolioPosition) :
    ((AnalyticsService.computeConcentrationRisk positions).isHighlyConcentrated =
        decide (portfolioHhi positions > 1 / 4) ∧
      ((AnalyticsService.computeConcentrationRisk positions).herfindahlIndex > 1 / 4 →
        (AnalyticsService.computeConcentrationRisk positions).isHighlyConcentrated = true) ∧
      ((AnalyticsService.computeConcentrationRisk positions).isHighlyConcentrated = true →
        1 / 4 ≤ (AnalyticsService.computeConcentrationRisk positions).herfindahlIndex)) ∧
    ((AiService.computeConcentration positions).isHighlyConcentrated =
        decide (portfolioHhi positions > 1 / 4) ∧
      ((AiService.computeConcentration positions).herfindahlIndex > 1 / 4 →
        (AiService.computeConcentration positions).isHighlyConcentrated = true) ∧
      ((AiService.computeConcentration positions).isHighlyConcentrated = true →
        1 / 4 ≤ (AiService.computeConcentration positions).herfindahlIndex)) := by
  refine ⟨⟨analytics_flag_eq positions, ?_, ?_⟩, ai_flag_eq positions, ?_, ?_⟩
  · intro h
    rw [analytics_herfindahl_eq] at h
    rw [analytics_flag_eq]
    exact decide_eq_true (gt_quarter_of_round4_gt h)
  · intro h
    rw [analytics_flag_eq] at h
    rw [analytics_herfindahl_eq]
    exact round4_ge_quarter_of_gt (of_decide_eq_true h)
  · intro h
    rw [ai_herfindahl_eq] at h
    rw [ai_flag_eq]
    exact decide_eq_true (gt_quarter_of_round4_gt h)
  · intro h
    rw [ai_flag_eq] at h
    rw [ai_herfindahl_eq]
    exact round4_ge_quarter_of_gt (of_decide_eq_true h)

/-- Claim C4 (witness): the amended theorem applied to a concrete 60/40
portfolio, whose returned HHI `0.52` exceeds `0.25`, discharging both
implications. -/
theorem claim_C4_amended_witness :
    (AnalyticsService.computeConcentrationRisk sixtyForty).isHighlyConcentrated = true ∧
    1 / 4 ≤ (AnalyticsService.computeConcentrationRisk sixtyForty).herfindahlIndex := by
  have hhhi : portfolioHhi sixtyForty = 13 / 25 := by
    norm_num [portfolioHhi, sixtyForty, mkPosition, fracOf]
  have h1 : (AnalyticsService.computeConcentrationRisk sixtyForty).herfindahlIndex > 1 / 4 := by
    rw [analytics_herfindahl_eq, hhhi]
    have hr : jsRound ((13 / 25 : ℚ) * 10000) = 5200 :=
      jsRound_eq_of (by norm_num) (by norm_num)
    rw [round4, hr]
    norm_num
  have h2 := (claim_C4_amended sixtyForty).1.2.1 h1
  exact ⟨h2, (claim_C4_amended sixtyForty).1.2.2 h2⟩

/-! ### Claim C5 -/

theorem list_sum_sq_le_sq_sum (l : List ℚ) (h : ∀ x ∈ l, 0 ≤ x) :
    (l.map (fun x => x * x)).sum ≤ l.sum * l.sum := by
  induction l with
  | nil => simp
  | cons x xs ih =>
    simp only [List.map_cons, List.sum_cons]
    have hx : 0 ≤ x := h x (by simp)
    have hxs : ∀ y ∈ xs, 0 ≤ y := fun y hy => h y (by simp [hy])
    have hs : 0 ≤ xs.sum := List.sum_nonneg hxs
    have hih := ih hxs
    nlinarith [mul_nonneg hx hs]

theorem portfolioHhi_nonneg (positions : List PortfolioPosition) :
    0 ≤ portfolioHhi positions := by
  refine List.sum_nonneg ?_
  intro x hx
  obtain ⟨p, _, rfl⟩ := List.mem_map.mp hx
  exact mul_self_nonneg _

theorem portfolioHhi_eq_sum_sq (positions : List PortfolioPosition) :
    portfolioHhi positions = ((positions.map fracOf).map (fun x => x * x)).sum := by
  rw [portfolioHhi, List.map_map]
  rfl

theorem portfolioHhi_le_one {positions : List PortfolioPosition}
    (h0 : ∀ p ∈ positions, 0 ≤ fracOf p)
    (h1 : (positions.map fracOf).sum ≤ 1) : portfolioHhi positions ≤ 1 := by
  have hmap : ∀ x ∈ positions.map fracOf, 0 ≤ x := by
    intro x hx
    obtain ⟨p, hp, rfl⟩ := List.mem_map.mp hx
    exact h0 p hp
  have h2 := list_sum_sq_le_sq_sum (positions.map fracOf) hmap
  have h3 : 0 ≤ (positions.map fracOf).sum := List.sum_nonneg hmap
  rw [portfolioHhi_eq_sum_sq]
  nlinarith

/-- Claim C5 (counterexample): two holdings each with allocation fraction 1
(each in `[0,1]`) produce a returned `herfindahlIndex` of 2, violating the
claimed upper bound of 1 — the code does not require fractions to sum to 1
and the HHI bound fails without that assumption. -/
theorem claim_C5_counterexample :
    (∀ p ∈ pairFullWeight, 0 ≤ fracOf p ∧ fracOf p ≤ 1) ∧
    ¬((AnalyticsService.computeConcentrationRisk pairFullWeight).herfindahlIndex ≤ 1) := by
  constructor
  · intro p hp
    fin_cases hp <;> norm_num [fracOf, mkPosition]
  · have hhhi : portfolioHhi pairFullWeight = 2 := by
      norm_num [portfolioHhi, pairFullWeight, mkPosition, fracOf]
    rw [analytics_herfindahl_eq, hhhi]
    have hr : jsRound ((2 : ℚ) * 10000) = 20000 :=
      jsRound_eq_of (by norm_num) (by norm_num)
    rw [round4, hr]
    norm_num

/-- Claim C5 (amended): for every holdings list whose allocation fractions
are each non-negative and sum to at most 1 (the portfolio-proportion
reading of the data model), the returned `herfindahlIndex` satisfies
`0 ≤ herfindahlIndex ≤ 1`; the lower bound needs no summing assumption. -/
theorem claim_C5_amended (positions : List PortfolioPosition)
    (h0 : ∀ p ∈ positions, 0 ≤ fracOf p)
    (h1 : (positions.map fracOf).sum ≤ 1) :
    0 ≤ (AnalyticsService.computeConcentrationRisk positions).herfindahlIndex ∧
    (AnalyticsService.computeConcentrationRisk positions).herfindahlIndex ≤ 1 := by
  rw [analytics_herfindahl_eq]
  exact ⟨round4_nonneg (portfolioHhi_nonneg positions),
    round4_le_one (portfolioHhi_le_one h0 h1)⟩

/-- Claim C5 (witness): the amended theorem applied to the concrete 60/40
portfolio, whose fractions are non-negative and sum to exactly 1. -/
theorem claim_C5_amended_witness :
    0 ≤ (AnalyticsService.computeConcentrationRisk sixtyForty).herfindahlIndex ∧
    (AnalyticsService.computeConcentrationRisk sixtyForty).herfindahlIndex ≤ 1 :=
  claim_C5_amended sixtyForty
    (by intro p hp; fin_cases hp <;> norm_num [fracOf, mkPosition])
    (by norm_num [sixtyForty, fracOf, mkPosition])

/-! ### Claim C8 -/

/-- Three holdings in three distinct classes, each with fraction `0.00005`,
which rounds up to `0.0001` per class. -/
def tinyTriple : List PortfolioPosition :=
  [mkPosition "A" "EQUITY" (1 / 20000), mkPosition "B" "FIXED_INCOME" (1 / 20000),
   mkPosition "C" "COMMODITY" (1 / 20000)]

theorem sum_weights_upsert (cls : String) (w v : ℚ) (m : List AssetAllocationEntry) :
    ((upsert cls w v m).map (·.weight)).sum = (m.map (·.weight)).sum + w := by
  induction m with
  | nil => simp [upsert]
  | cons e rest ih =>
    by_cases h : e.assetClass = cls
    · simp only [upsert, if_pos h, List.map_cons, List.sum_cons]
      ring
    · simp only [upsert, if_neg h, List.map_cons, List.sum_cons, ih]
      ring

theorem sum_weights_foldl (positions : List PortfolioPosition)
    (m : List AssetAllocationEntry) :
    (((positions.foldl (fun m p => upsert (classOf p) (fracOf p) (valOf p) m) m).map
        (·.weight)).sum) = (m.map (·.weight)).sum + (positions.map fracOf).sum := by
  induction positions generalizing m with
  | nil => simp
  | cons p ps ih =>
    simp only [List.foldl_cons, List.map_cons, List.sum_cons, ih, sum_weights_upsert]
    ring

theorem sum_weights_group (positions : List PortfolioPosition) :
    ((groupPositions positions).map (·.weight)).sum = (positions.map fracOf).sum := by
  have h := sum_weights_foldl positions []
  simpa [groupPositions] using h

theorem abs_sum_round4_sub (l : List ℚ) :
    |(l.map round4).sum - l.sum| ≤ (l.length : ℚ) / 20000 := by
  induction l with
  | nil => simp
  | cons x xs ih =>
    simp only [List.map_cons, List.sum_cons, List.length_cons]
    have h := abs_round4_sub x
    have htri : |round4 x + (xs.map round4).sum - (x + xs.sum)| ≤
        |round4 x - x| + |(xs.map round4).sum - xs.sum| := by
      have : round4 x + (xs.map round4).sum - (x + xs.sum) =
          (round4 x - x) + ((xs.map round4).sum - xs.sum) := by ring
      rw [this]
      exact abs_add _ _
    have hcast : ((xs.length + 1 : ℕ) : ℚ) = (xs.length : ℚ) + 1 := by push_cast; ring
    rw [hcast]
    have := ih
    linarith

/-- Claim C8 (counterexample): three holdings in distinct classes each with
fraction `0.00005` round up to `0.0001` per allocation entry; the summed
entry weights are `0.0003` against summed fractions `0.00015`, a gap of
`0.00015`, exceeding the claimed `1e-4` tolerance. -/
theorem claim_C8_counterexample :
    ¬(|((AnalyticsService.computeAssetAllocation tinyTriple).map (·.weight)).sum -
        (tinyTriple.map fracOf).sum| ≤ 1 / 10000) := by
  have hg : groupPositions tinyTriple =
      [⟨"EQUITY", 1 / 20000, 0⟩, ⟨"FIXED_INCOME", 1 / 20000, 0⟩,
       ⟨"COMMODITY", 1 / 20000, 0⟩] := by
    simp [groupPositions, tinyTriple, upsert, mkPosition, classOf, fracOf, valOf]
  have hr : round4 (1 / 20000) = 1 / 10000 := by
    have h : jsRound ((1 / 20000 : ℚ) * 10000) = 1 := jsRound_eq_of (by norm_num) (by norm_num)
    rw [round4, h]
    norm_num
  have halloc : AnalyticsService.computeAssetAllocation tinyTriple =
      [⟨"EQUITY", 1 / 10000, 0⟩, ⟨"FIXED_INCOME", 1 / 10000, 0⟩,
       ⟨"COMMODITY", 1 / 10000, 0⟩] := by
    rw [AnalyticsService.computeAssetAllocation, hg]
    simp [sortAllocation, entryLe, round2_zero]
    rw [show ((20000 : ℚ))⁻¹ = 1 / 20000 from by norm_num, hr]
    norm_num
  rw [halloc]
  have hsum : (tinyTriple.map fracOf).sum = 3 / 20000 := by
    norm_num [tinyTriple, fracOf, mkPosition]
  rw [hsum]
  simp only [List.map_cons, List.map_nil, List.sum_cons, List.sum_nil]
  rw [show (1 / 10000 + (1 / 10000 + (1 / 10000 + 0)) - 3 / 20000 : ℚ) = 3 / 20000 by ring]
  rw [abs_of_nonneg (by norm_num)]
  norm_num

/-- Claim C8 (amended): the summed allocation-entry weights equal the summed
holding fractions up to a per-entry rounding error of at most `5e-5`, i.e.
within `k * 5e-5` where `k` is the number of allocation entries (one per
distinct asset class); the claimed fixed `1e-4` tolerance holds only for up
to two entries. -/
theorem claim_C8_amended (positions : List PortfolioPosition) :
    |((AnalyticsService.computeAssetAllocation positions).map (·.weight)).sum -
        (positions.map fracOf).sum| ≤
      ((AnalyticsService.computeAssetAllocation positions).length : ℚ) / 20000 := by
  have hperm : List.Perm (AnalyticsService.computeAssetAllocation positions)
      ((groupPositions positions).map (fun e =>
        ⟨e.assetClass, round4 e.weight, round2 e.valueInBaseCurrency⟩)) :=
    List.perm_insertionSort _ _
  have hsum1 : ((AnalyticsService.computeAssetAllocation positions).map (·.weight)).sum =
      (((groupPositions positions).map (fun e =>
        (⟨e.assetClass, round4 e.weight, round2 e.valueInBaseCurrency⟩ :
          AssetAllocationEntry))).map (·.weight)).sum :=
    (hperm.map (·.weight)).sum_eq
  have hsum2 : (((groupPositions positions).map (fun e =>
      (⟨e.assetClass, round4 e.weight, round2 e.valueInBaseCurrency⟩ :
        AssetAllocationEntry))).map (·.weight)).sum =
      ((((groupPositions positions).map (·.weight)).map round4)).sum := by
    simp [List.map_map]
    rfl
  have hlen : (AnalyticsService.computeAssetAllocation positions).length =
      ((groupPositions positions).map (·.weight)).length := by
    rw [AnalyticsService.computeAssetAllocation, sortAllocation, List.length_insertionSort,
      List.length_map, List.length_map]
  rw [hsum1, hsum2, hlen]
  rw [show (positions.map fracOf).sum = ((groupPositions positions).map (·.weight)).sum from
    (sum_weights_group positions).symm]
  exact abs_sum_round4_sub _

/-! ### Claim C7 -/

/-- Claim C7 (counterexample): the complete response object embeds the
capture-time `computedAt` timestamp (`new Date().toISOString()`), so two
invocations of `getAnalytics` on the same unchanged holdings list at
different capture times return different complete response objects. -/
theorem claim_C7_counterexample :
    AnalyticsService.getAnalytics [] "2025-01-01T00:00:00.000Z" ≠
      AnalyticsService.getAnalytics [] "2025-01-01T00:00:01.000Z" := by
  intro h
  have hc : ("2025-01-01T00:00:00.000Z" : String) = "2025-01-01T00:00:01.000Z" :=
    congrArg AnalyticsService.PortfolioAnalyticsResponse.computedAt h
  exact absurd hc (by decide)

/-- Claim C7 (amended): computing analytics twice on the same unchanged
holdings list returns responses identical in every field except the
`computedAt` capture timestamp (which equals each call's capture time); in
particular the insight list — a pure function of the metrics — is identical
across the two calls. -/
theorem claim_C7_amended (positions : List PortfolioPosition) (t t' : String) :
    (AnalyticsService.getAnalytics positions t).assetAllocation =
      (AnalyticsService.getAnalytics positions t').assetAllocation ∧
    (AnalyticsService.getAnalytics positions t).concentrationRisk =
      (AnalyticsService.getAnalytics positions t').concentrationRisk ∧
    (AnalyticsService.getAnalytics positions t).diversification =
      (AnalyticsService.getAnalytics positions t').diversification ∧
    (AnalyticsService.getAnalytics positions t).insights =
      (AnalyticsService.getAnalytics positions t').insights ∧
    (AnalyticsService.getAnalytics positions t).computedAt = t :=
  ⟨rfl, rfl, rfl, rfl, rfl⟩

/-! ### Claim C10 -/

/-- The concentration chunk of `AnalyticsService.generateInsights`. -/
def AnalyticsService.concChunk (c : ConcentrationRisk) : List AnalyticsService.Insight :=
  if c.isHighlyConcentrated then
    [AnalyticsService.Insight.highConcentration c.topHoldingName c.topHoldingSymbol
      (toFixed1 (c.topHoldingWeight * 100)) (toFixed4 c.herfindahlIndex)]
  else if c.topHoldingWeight > 15 / 100 then
    [AnalyticsService.Insight.moderateConcentration c.topHoldingName
      (toFixed1 (c.topHoldingWeight * 100))]
  else []

/-- The diversification chunk of `AnalyticsService.generateInsights`. -/
def AnalyticsService.divChunk (d : DiversificationScore) : List AnalyticsService.Insight :=
  if d.score ≥ 70 then
    [AnalyticsService.Insight.goodDiversification d.score d.holdingsCount d.assetClassCount]
  else if d.score ≥ 40 then
    [AnalyticsService.Insight.moderateDiversification d.score]
  else
    [AnalyticsService.Insight.lowDiversification d.score d.topAssetClass
      (toFixed1 (d.topAssetClassWeight * 100))]

/-- The equity-overweight chunk of `AnalyticsService.generateInsights`. -/
def AnalyticsService.equityChunk (allocation : List AssetAllocationEntry) :
    List AnalyticsService.Insight :=
  match allocation.find? (fun a => a.assetClass == "EQUITY") with
  | some a =>
    if a.weight > 8 / 10 then [AnalyticsService.Insight.equityOverweight (toFixed1 (a.weight * 100))]
    else []
  | none => []

/-- The fixed-income-absence chunk of `AnalyticsService.generateInsights`. -/
def AnalyticsService.fiChunk (allocation : List AssetAllocationEntry) :
    List AnalyticsService.Insight :=
  match allocation.find? (fun a => a.assetClass == "FIXED_INCOME") with
  | some a => if a.weight < 5 / 100 then [AnalyticsService.Insight.fixedIncomeAbsence] else []
  | none => [AnalyticsService.Insight.fixedIncomeAbsence]

theorem analytics_generateInsights_eq (c : ConcentrationRisk) (d : DiversificationScore)
    (a : List AssetAllocationEntry) :
    AnalyticsService.generateInsights c d a =
      ((AnalyticsService.concChunk c ++ AnalyticsService.divChunk d) ++
        AnalyticsService.equityChunk a) ++ AnalyticsService.fiChunk a := rfl

/-- The concentration chunk of `AiService.generateInsights`. -/
def AiService.concChunk (c : ConcentrationRisk) : List AiService.AiInsight :=
  if c.isHighlyConcentrated then
    [AiService.AiInsight.highConcentration c.topHoldingName (toFixed1 c.topHoldingWeight)
      (toFixed4 c.herfindahlIndex)]
  else if c.topHoldingWeight > 15 then
    [AiService.AiInsight.moderateConcentration c.topHoldingName (toFixed1 c.topHoldingWeight)]
  else []

/-- The diversification chunk of `AiService.generateInsights`. -/
def AiService.divChunk (d : DiversificationScore) : List AiService.AiInsight :=
  if d.score ≥ 70 then
    [AiService.AiInsight.goodDiversification d.score d.holdingsCount d.assetClassCount]
  else if d.score ≥ 40 then
    [AiService.AiInsight.moderateDiversification d.score]
  else
    [AiService.AiInsight.lowDiversification d.score d.topAssetClass
      (toFixed1 d.topAssetClassWeight)]

/-- The equity-overweight chunk of `AiService.generateInsights`. -/
def AiService.equityChunk (allocation : List AssetAllocationEntry) :
    List AiService.AiInsight :=
  match allocation.find? (fun a => a.assetClass == "EQUITY") with
  | some a =>
    if a.weight > 80 then [AiService.AiInsight.equityOverweight (toFixed1 a.weight)] else []
  | none => []

/-- The fixed-income-absence chunk of `AiService.generateInsights`. -/
def AiService.fiChunk (allocation : List AssetAllocationEntry) : List AiService.AiInsight :=
  match allocation.find? (fun a => a.assetClass == "FIXED_INCOME") with
  | some a => if a.weight < 5 then [AiService.AiInsight.fixedIncomeAbsence] else []
  | none => [AiService.AiInsight.fixedIncomeAbsence]

theorem ai_generateInsights_eq (c : ConcentrationRisk) (d : DiversificationScore)
    (a : List AssetAllocationEntry) :
    AiService.generateInsights c d a =
      ((AiService.concChunk c ++ AiService.divChunk d) ++
        AiService.equityChunk a) ++ AiService.fiChunk a := rfl

theorem analytics_concChunk_cases (c : ConcentrationRisk) :
    AnalyticsService.concChunk c = [] ∨
      ∃ i, AnalyticsService.concChunk c = [i] ∧ i.rule = InsightRule.concentration := by
  rw [AnalyticsService.concChunk]
  split_ifs
  · exact Or.inr ⟨_, rfl, rfl⟩
  · exact Or.inr ⟨_, rfl, rfl⟩
  · exact Or.inl rfl

theorem analytics_divChunk_cases (d : DiversificationScore) :
    ∃ i, AnalyticsService.divChunk d = [i] ∧ i.rule = InsightRule.diversification := by
  rw [AnalyticsService.divChunk]
  split_ifs
  · exact ⟨_, rfl, rfl⟩
  · exact ⟨_, rfl, rfl⟩
  · exact ⟨_, rfl, rfl⟩

theorem analytics_equityChunk_cases (a : List AssetAllocationEntry) :
    AnalyticsService.equityChunk a = [] ∨
      ∃ i, AnalyticsService.equityChunk a = [i] ∧ i.rule = InsightRule.equity := by
  rw [AnalyticsService.equityChunk]
  rcases hE : a.find? (fun x => x.assetClass == "EQUITY") with _ | e
  · exact Or.inl (by simp [hE])
  · simp only [hE]
    split_ifs
    · exact Or.inr ⟨_, rfl, rfl⟩
    · exact Or.inl rfl

theorem analytics_fiChunk_cases (a : List AssetAllocationEntry) :
    AnalyticsService.fiChunk a = [] ∨
      ∃ i, AnalyticsService.fiChunk a = [i] ∧ i.rule = InsightRule.fixedIncome := by
  rw [AnalyticsService.fiChunk]
  rcases hF : a.find? (fun x => x.assetClass == "FIXED_INCOME") with _ | f
  · exact Or.inr ⟨AnalyticsService.Insight.fixedIncomeAbsence, by simp [hF], rfl⟩
  · simp only [hF]
    split_ifs
    · exact Or.inr ⟨_, rfl, rfl⟩
    · exact Or.inl rfl

theorem ai_concChunk_cases (c : ConcentrationRisk) :
    AiService.concChunk c = [] ∨
      ∃ i, AiService.concChunk c = [i] ∧ i.rule = InsightRule.concentration := by
  rw [AiService.concChunk]
  split_ifs
  · exact Or.inr ⟨_, rfl, rfl⟩
  · exact Or.inr ⟨_, rfl, rfl⟩
  · exact Or.inl rfl

theorem ai_divChunk_cases (d : DiversificationScore) :
    ∃ i, AiService.divChunk d = [i] ∧ i.rule = InsightRule.diversification := by
  rw [AiService.divChunk]
  split_ifs
  · exact ⟨_, rfl, rfl⟩
  · exact ⟨_, rfl, rfl⟩
  · exact ⟨_, rfl, rfl⟩

theorem ai_equityChunk_cases (a : List AssetAllocationEntry) :
    AiService.equityChunk a = [] ∨
      ∃ i, AiService.equityChunk a = [i] ∧ i.rule = InsightRule.equity := by
  rw [AiService.equityChunk]
  rcases hE : a.find? (fun x => x.assetClass == "EQUITY") with _ | e
  · exact Or.inl (by simp [hE])
  · simp only [hE]
    split_ifs
    · exact Or.inr ⟨_, rfl, rfl⟩
    · exact Or.inl rfl

theorem ai_fiChunk_cases (a : List AssetAllocationEntry) :
    AiService.fiChunk a = [] ∨
      ∃ i, AiService.fiChunk a = [i] ∧ i.rule = InsightRule.fixedIncome := by
  rw [AiService.fiChunk]
  rcases hF : a.find? (fun x => x.assetClass == "FIXED_INCOME") with _ | f
  · exact Or.inr ⟨AiService.AiInsight.fixedIncomeAbsence, by simp [hF], rfl⟩
  · simp only [hF]
    split_ifs
    · exact Or.inr ⟨_, rfl, rfl⟩
    · exact Or.inl rfl

theorem insight_list_bounds {α : Type} (f : α → InsightRule) (L l1 l2 l3 l4 : List α)
    (hL : L = ((l1 ++ l2) ++ l3) ++ l4)
    (h1 : l1 = [] ∨ ∃ i, l1 = [i] ∧ f i = InsightRule.concentration)
    (h2 : ∃ i, l2 = [i] ∧ f i = InsightRule.diversification)
    (h3 : l3 = [] ∨ ∃ i, l3 = [i] ∧ f i = InsightRule.equity)
    (h4 : l4 = [] ∨ ∃ i, l4 = [i] ∧ f i = InsightRule.fixedIncome) :
    1 ≤ L.length ∧ L.length ≤ 4 ∧
    L.countP (fun i => f i == InsightRule.diversification) = 1 ∧
    L.countP (fun i => f i == InsightRule.concentration) ≤ 1 ∧
    L.countP (fun i => f i == InsightRule.equity) ≤ 1 ∧
    L.countP (fun i => f i == InsightRule.fixedIncome) ≤ 1 := by
  obtain ⟨i2, rfl, hi2⟩ := h2
  subst hL
  rcases h1 with rfl | ⟨i1, rfl, hi1⟩ <;> rcases h3 with rfl | ⟨i3, rfl, hi3⟩ <;>
    rcases h4 with rfl | ⟨i4, rfl, hi4⟩ <;>
    simp_all [List.countP_append, List.countP_cons]

/-- Claim C10: in both services, `generateInsights` always returns between
1 and 4 messages: the diversification rule contributes exactly one message,
and the concentration, equity-overweight and fixed-income-absence rules
contribute at most one message each; the list is never empty. -/
theorem claim_C10_insight_bounds (c : ConcentrationRisk) (d : DiversificationScore)
    (a : List AssetAllocationEntry) :
    (1 ≤ (AnalyticsService.generateInsights c d a).length ∧
      (AnalyticsService.generateInsights c d a).length ≤ 4 ∧
      (AnalyticsService.generateInsights c d a).countP
        (fun i => i.rule == InsightRule.diversification) = 1 ∧
      (AnalyticsService.generateInsights c d a).countP
        (fun i => i.rule == InsightRule.concentration) ≤ 1 ∧
      (AnalyticsService.generateInsights c d a).countP
        (fun i => i.rule == InsightRule.equity) ≤ 1 ∧
      (AnalyticsService.generateInsights c d a).countP
        (fun i => i.rule == InsightRule.fixedIncome) ≤ 1) ∧
    (1 ≤ (AiService.generateInsights c d a).length ∧
      (AiService.generateInsights c d a).length ≤ 4 ∧
      (AiService.generateInsights c d a).countP
        (fun i => i.rule == InsightRule.diversification) = 1 ∧
      (AiService.generateInsights c d a).countP
        (fun i => i.rule == InsightRule.concentration) ≤ 1 ∧
      (AiService.generateInsights c d a).countP
        (fun i => i.rule == InsightRule.equity) ≤ 1 ∧
      (AiService.generateInsights c d a).countP
        (fun i => i.rule == InsightRule.fixedIncome) ≤ 1) :=
  ⟨insight_list_bounds AnalyticsService.Insight.rule _ _ _ _ _
      (analytics_generateInsights_eq c d a) (analytics_concChunk_cases c)
      (analytics_divChunk_cases d) (analytics_equityChunk_cases a)
      (analytics_fiChunk_cases a),
    insight_list_bounds AiService.AiInsight.rule _ _ _ _ _
      (ai_generateInsights_eq c d a) (ai_concChunk_cases c)
      (ai_divChunk_cases d) (ai_equityChunk_cases a)
      (ai_fiChunk_cases a)⟩

/-! ### Claim C9 -/

/-- A position with every absent field replaced by the default the engine
applies on access: 0 for numerics, the empty string for the symbol, the
symbol-falling-back name, `UNKNOWN` for categorical classes, and the user
currency for the currency (per `AiService.getSummary`). -/
def normalizePosition (userCurrency : String) (p : PortfolioPosition) : PortfolioPosition :=
  { symbol := some (symbolOf p)
    name := some (nameOf p)
    assetClass := some (classOf p)
    assetSubClass := some (p.assetSubClass.getD "UNKNOWN")
    currency := some (p.currency.getD userCurrency)
    allocationInPercentage := some (fracOf p)
    valueInBaseCurrency := some (valOf p)
    marketPrice := some (p.marketPrice.getD 0) }

theorem sortPositions_normalize (cur : String) (ps : List PortfolioPosition) :
    sortPositions (ps.map (normalizePosition cur)) = (sortPositions ps).map (normalizePosition cur) := by
  have h : (ps.insertionSort posLe).map (normalizePosition cur) =
      (ps.map (normalizePosition cur)).insertionSort posLe :=
    List.map_insertionSort _ _ _ _ (fun a _ b _ => Iff.rfl)
  rw [sortPositions, sortPositions, ← h]

theorem portfolioHhi_normalize (cur : String) (ps : List PortfolioPosition) :
    portfolioHhi (ps.map (normalizePosition cur)) = portfolioHhi ps := by
  rw [portfolioHhi, portfolioHhi, List.map_map]
  rfl

theorem groupPositions_normalize (cur : String) (ps : List PortfolioPosition) :
    groupPositions (ps.map (normalizePosition cur)) = groupPositions ps := by
  rw [groupPositions, groupPositions, List.foldl_map]
  rfl

theorem holdingsCount_normalize (cur : String) (ps : List PortfolioPosition) :
    AnalyticsService.holdingsCountOf (ps.map (normalizePosition cur)) =
      AnalyticsService.holdingsCountOf ps := by
  rw [AnalyticsService.holdingsCountOf, AnalyticsService.holdingsCountOf]
  induction ps with
  | nil => rfl
  | cons p ps ih =>
    have hp : ((normalizePosition cur p).assetClass != some "LIQUIDITY") =
        (p.assetClass != some "LIQUIDITY") := by
      cases hc : p.assetClass <;> simp [normalizePosition, classOf, hc] <;> rfl
    simp only [List.map_cons, List.filter_cons, hp]
    by_cases h : (p.assetClass != some "LIQUIDITY") = true
    · rw [if_pos h, if_pos h]
      simp only [List.length_cons, ih]
    · rw [if_neg h, if_neg h]
      exact ih

theorem holdingsScore_normalize (cur : String) (ps : List PortfolioPosition) :
    AnalyticsService.holdingsScoreOf (ps.map (normalizePosition cur)) =
      AnalyticsService.holdingsScoreOf ps := by
  rw [AnalyticsService.holdingsScoreOf, AnalyticsService.holdingsScoreOf,
    holdingsCount_normalize]

theorem concentration_normalize (cur : String) (ps : List PortfolioPosition) :
    AnalyticsService.computeConcentrationRisk (ps.map (normalizePosition cur)) =
      AnalyticsService.computeConcentrationRisk ps := by
  rw [AnalyticsService.computeConcentrationRisk, AnalyticsService.computeConcentrationRisk,
    sortPositions_normalize, portfolioHhi_normalize]
  cases sortPositions ps with
  | nil => rfl
  | cons top rest => rfl

theorem ai_concentration_normalize (cur : String) (ps : List PortfolioPosition) :
    AiService.computeConcentration (ps.map (normalizePosition cur)) =
      AiService.computeConcentration ps := by
  rw [AiService.computeConcentration, AiService.computeConcentration,
    sortPositions_normalize, portfolioHhi_normalize]
  cases sortPositions ps with
  | nil => rfl
  | cons top rest => rfl

theorem allocation_normalize (cur : String) (ps : List PortfolioPosition) :
    AnalyticsService.computeAssetAllocation (ps.map (normalizePosition cur)) =
      AnalyticsService.computeAssetAllocation ps := by
  rw [AnalyticsService.computeAssetAllocation, AnalyticsService.computeAssetAllocation,
    groupPositions_normalize]

theorem ai_allocation_normalize (cur : String) (ps : List PortfolioPosition) :
    AiService.computeAssetAllocation (ps.map (normalizePosition cur)) =
      AiService.computeAssetAllocation ps := by
  rw [AiService.computeAssetAllocation, AiService.computeAssetAllocation,
    groupPositions_normalize]

theorem diversification_normalize (cur : String) (ps : List PortfolioPosition)
    (alloc : List AssetAllocationEntry) :
    AnalyticsService.computeDiversification (ps.map (normalizePosition cur)) alloc =
      AnalyticsService.computeDiversification ps alloc := by
  rw [AnalyticsService.computeDiversification, AnalyticsService.computeDiversification,
    holdingsScore_normalize, holdingsCount_normalize]

theorem ai_diversification_normalize (cur : String) (ps : List PortfolioPosition)
    (alloc : List AssetAllocationEntry) :
    AiService.computeDiversification (ps.map (normalizePosition cur)) alloc =
      AiService.computeDiversification ps alloc := by
  rw [AiService.computeDiversification, AiService.computeDiversification,
    holdingsScore_normalize, holdingsCount_normalize]

/-- Claim C9: the engine is total on malformed input — in the embedding both
endpoint computations are total functions, and every absent field is read
through its defaulting accessor (0 for numerics, empty string or `UNKNOWN`
for categoricals, the user currency for a missing currency): replacing every
holding by its explicitly-defaulted normal form leaves both endpoints'
complete outputs unchanged, so no absent value ever reaches arithmetic or
the response undefaulted. -/
theorem claim_C9_total_defaulting (positions : List PortfolioPosition) (cur now : String) :
    AnalyticsService.getAnalytics (positions.map (normalizePosition cur)) now =
      AnalyticsService.getAnalytics positions now ∧
    AiService.getSummary (positions.map (normalizePosition cur)) cur now =
      AiService.getSummary positions cur now := by
  constructor
  · simp only [AnalyticsService.getAnalytics]
    rw [concentration_normalize, allocation_normalize, diversification_normalize]
  · simp only [AiService.getSummary]
    rw [sortPositions_normalize, ai_concentration_normalize, ai_allocation_normalize,
      ai_diversification_normalize, List.map_map]
    rfl

/-! ### Claim C1: permutation properties of the class-map accumulation -/

theorem upsert_of_not_mem {cls : String} {m : List AssetAllocationEntry} (w v : ℚ)
    (h : cls ∉ m.map (·.assetClass)) : upsert cls w v m = m ++ [⟨cls, w, v⟩] := by
  induction m with
  | nil => rfl
  | cons e rest ih =>
    simp only [List.map_cons, List.mem_cons] at h
    push_neg at h
    rw [upsert, if_neg (fun he => h.1 he.symm), List.cons_append, ih h.2]

theorem upsert_keys_of_mem {cls : String} {m : List AssetAllocationEntry} (w v : ℚ)
    (h : cls ∈ m.map (·.assetClass)) :
    (upsert cls w v m).map (·.assetClass) = m.map (·.assetClass) := by
  induction m with
  | nil => simp at h
  | cons e rest ih =>
    by_cases he : e.assetClass = cls
    · rw [upsert, if_pos he]
      simp
    · rw [upsert, if_neg he]
      simp only [List.map_cons] at h ⊢
      rcases List.mem_cons.mp h with h1 | h2
      · exact absurd h1.symm he
      · rw [ih h2]

theorem upsert_keys_nodup {cls : String} {m : List AssetAllocationEntry} (w v : ℚ)
    (h : (m.map (·.assetClass)).Nodup) :
    ((upsert cls w v m).map (·.assetClass)).Nodup := by
  by_cases hm : cls ∈ m.map (·.assetClass)
  · rw [upsert_keys_of_mem w v hm]
    exact h
  · rw [upsert_of_not_mem w v hm]
    simp only [List.map_append, List.map_cons, List.map_nil]
    rw [List.nodup_append]
    exact ⟨h, List.nodup_singleton _, by simpa using hm⟩

theorem upsert_perm {m m' : List AssetAllocationEntry} (cls : String) (w v : ℚ)
    (h : List.Perm m m') (hd : (m.map (·.assetClass)).Nodup) :
    List.Perm (upsert cls w v m) (upsert cls w v m') := by
  induction h with
  | nil => exact List.Perm.refl _
  | cons x hperm ih =>
    by_cases hx : x.assetClass = cls
    · rw [upsert, if_pos hx, upsert, if_pos hx]
      exact hperm.cons _
    · rw [upsert, if_neg hx, upsert, if_neg hx]
      simp only [List.map_cons, List.nodup_cons] at hd
      exact (ih hd.2).cons x
  | swap x y l =>
    simp only [List.map_cons, List.nodup_cons, List.mem_cons] at hd
    have hyx : y.assetClass ≠ x.assetClass := fun hxy => hd.1 (Or.inl hxy)
    by_cases hy : y.assetClass = cls <;> by_cases hx : x.assetClass = cls
    · exact absurd (hy.trans hx.symm) hyx
    · simp only [upsert, if_pos hy, if_neg hx]
      exact List.Perm.swap x _ l
    · simp only [upsert, if_neg hy, if_pos hx]
      exact List.Perm.swap _ y l
    · simp only [upsert, if_neg hy, if_neg hx]
      exact List.Perm.swap x y _
  | trans h₁ h₂ ih₁ ih₂ =>
    have hd₂ := ((h₁.map (·.assetClass)).nodup_iff).mp hd
    exact (ih₁ hd).trans (ih₂ hd₂)

theorem upsert_upsert_eq (c : String) (w₁ v₁ w₂ v₂ : ℚ) (m : List AssetAllocationEntry) :
    upsert c w₂ v₂ (upsert c w₁ v₁ m) = upsert c w₁ v₁ (upsert c w₂ v₂ m) := by
  induction m with
  | nil =>
    simp only [upsert, eq_self_iff_true, if_true]
    rw [add_comm w₁ w₂, add_comm v₁ v₂]
  | cons e rest ih =>
    by_cases he : e.assetClass = c
    · simp only [upsert, if_pos he]
      rw [add_right_comm e.weight w₁ w₂, add_right_comm e.valueInBaseCurrency v₁ v₂]
    · simp only [upsert, if_neg he, ih]

theorem upsert_upsert_perm (c₁ c₂ : String) (w₁ v₁ w₂ v₂ : ℚ)
    (m : List AssetAllocationEntry) :
    List.Perm (upsert c₂ w₂ v₂ (upsert c₁ w₁ v₁ m)) (upsert c₁ w₁ v₁ (upsert c₂ w₂ v₂ m)) := by
  by_cases hc : c₁ = c₂
  · subst hc
    rw [upsert_upsert_eq]
  · induction m with
    | nil =>
      simp only [upsert, if_neg (fun h : c₁ = c₂ => hc h), if_neg (fun h : c₂ = c₁ => hc h.symm)]
      exact List.Perm.swap _ _ _
    | cons e rest ih =>
      by_cases h1 : e.assetClass = c₁ <;> by_cases h2 : e.assetClass = c₂
      · exact absurd (h1.symm.trans h2) hc
      · simp only [upsert, if_pos h1, if_neg h2]
        exact List.Perm.refl _
      · simp only [upsert, if_neg h1, if_pos h2]
        exact List.Perm.refl _
      · simp only [upsert, if_neg h1, if_neg h2]
        exact ih.cons e

/-- The accumulation step of both services' `computeAssetAllocation` loops. -/
def upsertStep (m : List AssetAllocationEntry) (p : PortfolioPosition) :
    List AssetAllocationEntry :=
  upsert (classOf p) (fracOf p) (valOf p) m

theorem foldl_upsert_perm_acc (l : List PortfolioPosition)
    {m m' : List AssetAllocationEntry} (h : List.Perm m m')
    (hd : (m.map (·.assetClass)).Nodup) :
    List.Perm (l.foldl upsertStep m) (l.foldl upsertStep m') := by
  induction l generalizing m m' with
  | nil => exact h
  | cons p l ih =>
    simp only [List.foldl_cons]
    exact ih (upsert_perm _ _ _ h hd) (upsert_keys_nodup _ _ hd)

theorem foldl_upsert_perm {ps qs : List PortfolioPosition} (h : List.Perm ps qs)
    {m : List AssetAllocationEntry} (hd : (m.map (·.assetClass)).Nodup) :
    List.Perm (ps.foldl upsertStep m) (qs.foldl upsertStep m) := by
  induction h generalizing m with
  | nil => exact List.Perm.refl _
  | cons p hperm ih =>
    simp only [List.foldl_cons]
    exact ih (upsert_keys_nodup _ _ hd)
  | swap x y l =>
    simp only [List.foldl_cons]
    exact foldl_upsert_perm_acc l (upsert_upsert_perm _ _ _ _ _ _ _)
      (upsert_keys_nodup _ _ (upsert_keys_nodup _ _ hd))
  | trans h₁ h₂ ih₁ ih₂ => exact (ih₁ hd).trans (ih₂ hd)

theorem groupPositions_eq_foldl (ps : List PortfolioPosition) :
    groupPositions ps = ps.foldl upsertStep [] := rfl

theorem groupPositions_perm {ps qs : List PortfolioPosition} (h : List.Perm ps qs) :
    List.Perm (groupPositions ps) (groupPositions qs) := by
  rw [groupPositions_eq_foldl, groupPositions_eq_foldl]
  exact foldl_upsert_perm h (by simp)

/-! ### Claim C1: relating the two services' outputs -/

/-- The fraction-to-percentage presentation transform on an allocation
entry: multiply the weight by 100, keep everything else. -/
def scaleEntry (e : AssetAllocationEntry) : AssetAllocationEntry :=
  ⟨e.assetClass, e.weight * 100, e.valueInBaseCurrency⟩

theorem ai_entry_eq_scale (e : AssetAllocationEntry) :
    (⟨e.assetClass, (jsRound (e.weight * 10000) : ℚ) / 100, round2 e.valueInBaseCurrency⟩ :
        AssetAllocationEntry) =
      scaleEntry ⟨e.assetClass, round4 e.weight, round2 e.valueInBaseCurrency⟩ := by
  simp only [scaleEntry, round4, AssetAllocationEntry.mk.injEq, true_and]
  exact ⟨by ring, trivial⟩

theorem aiAlloc_perm (ps : List PortfolioPosition) :
    List.Perm (AiService.computeAssetAllocation (sortPositions ps))
      ((AnalyticsService.computeAssetAllocation ps).map scaleEntry) := by
  rw [AiService.computeAssetAllocation, AnalyticsService.computeAssetAllocation]
  have hfun : (fun e : AssetAllocationEntry =>
      (⟨e.assetClass, (jsRound (e.weight * 10000) : ℚ) / 100, round2 e.valueInBaseCurrency⟩ :
        AssetAllocationEntry)) =
      (fun e => scaleEntry ⟨e.assetClass, round4 e.weight, round2 e.valueInBaseCurrency⟩) :=
    funext ai_entry_eq_scale
  rw [hfun]
  refine (List.perm_insertionSort _ _).trans ?_
  refine List.Perm.trans ?_ ((List.perm_insertionSort entryLe _).map scaleEntry).symm
  have h1 : List.Perm (groupPositions (sortPositions ps)) (groupPositions ps) :=
    groupPositions_perm (List.perm_insertionSort posLe ps)
  rw [List.map_map]
  exact h1.map _

instance : IsAntisymm ℚ (fun a b : ℚ => b ≤ a) :=
  ⟨fun _ _ h h' => le_antisymm h' h⟩

theorem sorted_weights_sortAllocation (l : List AssetAllocationEntry) :
    List.Sorted (fun a b : ℚ => b ≤ a) ((sortAllocation l).map (·.weight)) := by
  have h : List.Sorted entryLe (sortAllocation l) := List.sorted_insertionSort entryLe l
  exact List.Pairwise.map _ (fun a b hab => hab) h

theorem sorted_weights_scale (l : List AssetAllocationEntry)
    (h : List.Sorted (fun a b : ℚ => b ≤ a) (l.map (·.weight))) :
    List.Sorted (fun a b : ℚ => b ≤ a) ((l.map scaleEntry).map (·.weight)) := by
  rw [List.map_map]
  simp only [List.Sorted] at h ⊢
  rw [List.pairwise_map] at h ⊢
  refine h.imp ?_
  intro a b hab
  show (scaleEntry b).weight ≤ (scaleEntry a).weight
  simp only [scaleEntry]
  nlinarith [hab]

theorem ai_alloc_weights (ps : List PortfolioPosition) :
    (AiService.computeAssetAllocation (sortPositions ps)).map (·.weight) =
      (AnalyticsService.computeAssetAllocation ps).map (fun e => e.weight * 100) := by
  have hperm := (aiAlloc_perm ps).map (·.weight)
  have hs1 : List.Sorted (fun a b : ℚ => b ≤ a)
      ((AiService.computeAssetAllocation (sortPositions ps)).map (·.weight)) := by
    rw [AiService.computeAssetAllocation]
    exact sorted_weights_sortAllocation _
  have hs2 : List.Sorted (fun a b : ℚ => b ≤ a)
      (((AnalyticsService.computeAssetAllocation ps).map scaleEntry).map (·.weight)) := by
    refine sorted_weights_scale _ ?_
    rw [AnalyticsService.computeAssetAllocation]
    exact sorted_weights_sortAllocation _
  have heq := List.eq_of_perm_of_sorted hperm hs1 hs2
  rw [heq, List.map_map]
  rfl

theorem jsRound_zero : jsRound 0 = 0 := jsRound_eq_of (by norm_num) (by norm_num)

theorem portfolioHhi_sort (ps : List PortfolioPosition) :
    portfolioHhi (sortPositions ps) = portfolioHhi ps :=
  ((List.perm_insertionSort posLe ps).map _).sum_eq

theorem sortPositions_idem (ps : List PortfolioPosition) :
    sortPositions (sortPositions ps) = sortPositions ps :=
  List.Sorted.insertionSort_eq (List.sorted_insertionSort posLe ps)

theorem holdingsCount_sort (ps : List PortfolioPosition) :
    AnalyticsService.holdingsCountOf (sortPositions ps) =
      AnalyticsService.holdingsCountOf ps := by
  rw [AnalyticsService.holdingsCountOf, AnalyticsService.holdingsCountOf]
  exact ((List.perm_insertionSort posLe ps).filter _).length_eq

theorem assetClassCount_consistent (ps : List PortfolioPosition) :
    AnalyticsService.assetClassCountOf (AiService.computeAssetAllocation (sortPositions ps)) =
      AnalyticsService.assetClassCountOf (AnalyticsService.computeAssetAllocation ps) := by
  rw [AnalyticsService.assetClassCountOf, AnalyticsService.assetClassCountOf]
  have h := (aiAlloc_perm ps).filter AnalyticsService.isScoredClass
  rw [List.filter_map] at h
  have h2 := h.length_eq
  rw [List.length_map] at h2
  exact h2

theorem classHhi_consistent (ps : List PortfolioPosition) :
    AiService.classHhiOf (AiService.computeAssetAllocation (sortPositions ps)) =
      AnalyticsService.classHhiOf (AnalyticsService.computeAssetAllocation ps) := by
  rw [AiService.classHhiOf, AnalyticsService.classHhiOf]
  have h := (aiAlloc_perm ps).filter AnalyticsService.isScoredClass
  rw [List.filter_map] at h
  have h2 := ((h.map (fun a : AssetAllocationEntry => a.weight / 100)).map
    (fun w : ℚ => w * w)).sum_eq
  rw [h2]
  rw [List.map_map, List.map_map]
  have hfun : (((fun w : ℚ => w * w) ∘ fun a : AssetAllocationEntry => a.weight / 100) ∘
      scaleEntry) = (fun a : AssetAllocationEntry => a.weight * a.weight) := by
    funext a
    show (scaleEntry a).weight / 100 * ((scaleEntry a).weight / 100) = a.weight * a.weight
    simp only [scaleEntry]
    ring
  have hP : (AnalyticsService.isScoredClass ∘ scaleEntry) = AnalyticsService.isScoredClass :=
    funext fun a => rfl
  rw [hfun, hP]

theorem score_consistent (ps : List PortfolioPosition) :
    (AiService.computeDiversification (sortPositions ps)
        (AiService.computeAssetAllocation (sortPositions ps))).score =
      (AnalyticsService.computeDiversification ps
        (AnalyticsService.computeAssetAllocation ps)).score := by
  rw [AiService.computeDiversification, AnalyticsService.computeDiversification]
  show jsRound _ = jsRound _
  simp only [AnalyticsService.holdingsScoreOf, AnalyticsService.classScoreOf,
    AnalyticsService.evennessScoreOf]
  rw [holdingsCount_sort, assetClassCount_consistent, classHhi_consistent]

theorem herfindahl_consistent (ps : List PortfolioPosition) :
    (AiService.computeConcentration (sortPositions ps)).herfindahlIndex =
      (AnalyticsService.computeConcentrationRisk ps).herfindahlIndex := by
  rw [ai_herfindahl_eq, analytics_herfindahl_eq, portfolioHhi_sort]

theorem flag_consistent (ps : List PortfolioPosition) :
    (AiService.computeConcentration (sortPositions ps)).isHighlyConcentrated =
      (AnalyticsService.computeConcentrationRisk ps).isHighlyConcentrated := by
  rw [ai_flag_eq, analytics_flag_eq, portfolioHhi_sort]

theorem topFields_consistent (ps : List PortfolioPosition) :
    (AiService.computeConcentration (sortPositions ps)).topHoldingSymbol =
      (AnalyticsService.computeConcentrationRisk ps).topHoldingSymbol ∧
    (AiService.computeConcentration (sortPositions ps)).topHoldingName =
      (AnalyticsService.computeConcentrationRisk ps).topHoldingName ∧
    (AiService.computeConcentration (sortPositions ps)).topHoldingWeight =
      (jsRound ((AnalyticsService.computeConcentrationRisk ps).topHoldingWeight * 10000) : ℚ)
        / 100 := by
  rw [AiService.computeConcentration, AnalyticsService.computeConcentrationRisk,
    sortPositions_idem]
  cases sortPositions ps with
  | nil =>
    refine ⟨rfl, rfl, ?_⟩
    show (0 : ℚ) = (jsRound ((0 : ℚ) * 10000) : ℚ) / 100
    rw [show ((0 : ℚ) * 10000) = 0 by ring, jsRound_zero]
    norm_num
  | cons top rest => exact ⟨rfl, rfl, rfl⟩

/-- Claim C1: for every holdings list the two endpoints report numerically
consistent metrics from one canonical computation: the diversification
score, assetClassCount, holdingsCount, herfindahlIndex and
isHighlyConcentrated are equal; the allocation weight sequences agree
exactly up to the x100 fraction-to-percentage scaling, and the top-holding
weight agrees up to the spec's fraction-to-percentage presentation
transform (x100 with 2-decimal rounding, `Math.round(w * 10000) / 100`);
the top holding's identity (symbol and name) also agrees. -/
theorem claim_C1_endpoint_consistency (positions : List PortfolioPosition)
    (cur tA tS : String) :
    (AiService.getSummary positions cur tS).diversification.score =
      (AnalyticsService.getAnalytics positions tA).diversification.score ∧
    (AiService.getSummary positions cur tS).diversification.assetClassCount =
      (AnalyticsService.getAnalytics positions tA).diversification.assetClassCount ∧
    (AiService.getSummary positions cur tS).diversification.holdingsCount =
      (AnalyticsService.getAnalytics positions tA).diversification.holdingsCount ∧
    (AiService.getSummary positions cur tS).concentration.herfindahlIndex =
      (AnalyticsService.getAnalytics positions tA).concentrationRisk.herfindahlIndex ∧
    (AiService.getSummary positions cur tS).concentration.isHighlyConcentrated =
      (AnalyticsService.getAnalytics positions tA).concentrationRisk.isHighlyConcentrated ∧
    (AiService.getSummary positions cur tS).concentration.topHoldingSymbol =
      (AnalyticsService.getAnalytics positions tA).concentrationRisk.topHoldingSymbol ∧
    (AiService.getSummary positions cur tS).concentration.topHoldingName =
      (AnalyticsService.getAnalytics positions tA).concentrationRisk.topHoldingName ∧
    (AiService.getSummary positions cur tS).concentration.topHoldingWeight =
      (jsRound ((AnalyticsService.getAnalytics positions tA).concentrationRisk.topHoldingWeight
        * 10000) : ℚ) / 100 ∧
    (AiService.getSummary positions cur tS).assetAllocation.map (·.weight) =
      (AnalyticsService.getAnalytics positions tA).assetAllocation.map
        (fun e => e.weight * 100) :=
  ⟨score_consistent positions, assetClassCount_consistent positions,
    holdingsCount_sort positions, herfindahl_consistent positions, flag_consistent positions,
    (topFields_consistent positions).1, (topFields_consistent positions).2.1,
    (topFields_consistent positions).2.2, ai_alloc_weights positions⟩
